import Mathlib

/-!
Verification development for the travelcurator-backend location subsystem.

The definitions below are a shallow embedding of the TypeScript sources:
* `src/shared/services/location/types.ts` (data model),
* `src/shared/services/location/providers/hybrid.provider.ts` (merge engine),
* `src/shared/services/location/providers/google.provider.ts` (price-tier mapping),
* `src/shared/services/location/location.service.ts` (orchestrator, cache).

Conventions of the embedding:
* JavaScript numbers are modelled as `ℚ` (the constants involved in the
  claims — 0.4, 0.4, 0.2, 0.7, 200, 0.5, 0.3, 0.1, 100 — combine exactly
  the same way in IEEE doubles and in `ℚ` at every comparison the claims
  touch, so exact rationals are faithful here).
* JS truthiness on numbers (`x || d`, `if (x)`) is modelled explicitly:
  `0` is falsy, every other number truthy (`jsOrQ`, `jsOrNat`).
* Absent optional object fields are `Option.none`; `Date` values are
  opaque timestamps (`ℕ`), threaded as a `now` parameter where the code
  calls `new Date()` / `Date.now()`.
* A JS `Map` is an insertion-ordered association list with unique keys.
* The haversine `calculateDistance` uses transcendental functions, so the
  merge engine is parameterised by the distance function
  `dist : Coordinates → Coordinates → ℚ`; every theorem about the merge
  engine holds for an arbitrary `dist`, hence for the haversine one.
-/

/-- `POICategory` enum from `types.ts`. -/
inductive POICategory where
  | restaurant | cafe | bar | fast_food | ice_cream | marketplace
  | museum | gallery | attraction | monument | castle | theatre | cinema | library
  | park | fitness_centre | swimming_pool | sports_centre | golf_course | marina
  | beach | viewpoint
  | spa | garden | nature_reserve
  | shop | mall | market | department_store
  | bank | atm | pharmacy | hospital | toilets | fuel | post_office
  | pub | nightclub | casino
  | bus_station | subway | taxi | car_rental | parking
deriving DecidableEq, BEq, Repr

/-- `mood` union type from `types.ts`. -/
inductive Mood where
  | energetic | relaxed | curious | hungry | cultural
deriving DecidableEq, BEq, Repr

/-- `metadata.source` values (`types.ts` plus the `'merged' as const` used by
the hybrid provider). -/
inductive Source where
  | osm | google | manual | merged
deriving DecidableEq, BEq, Repr

structure Coordinates where
  latitude : ℚ
  longitude : ℚ
deriving DecidableEq, Repr

/-- `metadata.osm` detail: the tag record is represented by its key list
(`Object.keys(tags)`); keys of a JS record are distinct. -/
structure OsmDetail where
  id : String
  type : String
  tagKeys : List String
deriving DecidableEq, Repr

/-- `metadata.google` detail. -/
structure GoogleDetail where
  placeId : String
  rating : Option ℚ
  reviewCount : Option ℚ
  priceLevel : Option ℕ
deriving DecidableEq, Repr

/-- `metadata.contact`: three optional fields; an absent contact object is
the all-`none` record (the code reads it as `contact || {}`). -/
structure Contact where
  phone : Option String
  website : Option String
  email : Option String
deriving DecidableEq, Repr

def Contact.isEmpty (c : Contact) : Bool :=
  c.phone.isNone && c.website.isNone && c.email.isNone

/-- `PlaceMetadata` from `types.ts`, with the `mergeStatus` string the hybrid
provider reads and writes on it. `hours` is the per-day string map. -/
structure PlaceMetadata where
  source : Source
  externalId : String
  lastUpdated : ℕ
  verified : Bool
  osm : Option OsmDetail
  google : Option GoogleDetail
  contact : Option Contact
  hours : Option (List (String × String))
  features : Option (List String)
  mergeStatus : Option String
deriving DecidableEq, Repr

/-- `Place` from `types.ts`. -/
structure Place where
  id : String
  name : String
  category : POICategory
  subcategory : String
  coordinates : Coordinates
  distance : Option ℚ
  address : Option String
  description : Option String
  metadata : Option PlaceMetadata
deriving DecidableEq, Repr

/-- JS `x || d` for an optional number: `undefined` and `0` both fall back. -/
def jsOrQ (x : Option ℚ) (d : ℚ) : ℚ :=
  match x with
  | none => d
  | some v => if v = 0 then d else v

/-- JS `x || d` for an optional natural: `undefined` and `0` both fall back. -/
def jsOrNat (x : Option ℕ) (d : ℕ) : ℕ :=
  match x with
  | none => d
  | some v => if v = 0 then d else v

/-- `Math.max` on two rationals. -/
def jsMax (a b : ℚ) : ℚ := if a ≤ b then b else a

/-- `Math.min` on two rationals. -/
def jsMin (a b : ℚ) : ℚ := if b ≤ a then b else a

/-- `str1.includes(str2)` helper: is `small` a prefix of `big`? -/
def isPrefOf : List Char → List Char → Bool
  | [], _ => true
  | _ :: _, [] => false
  | a :: as, b :: bs => a == b && isPrefOf as bs

/-- `big.includes(small)` on character lists: contiguous-substring test. -/
def hasSubstr : List Char → List Char → Bool
  | [], small => small.isEmpty
  | b :: t, small => isPrefOf small (b :: t) || hasSubstr t small

/-- JS `s.includes(t)`. -/
def strIncludes (s t : String) : Bool :=
  hasSubstr s.data t.data

/-- Drop leading whitespace from a character list. -/
def trimLeftChars : List Char → List Char
  | [] => []
  | c :: cs => if c.isWhitespace then trimLeftChars cs else c :: cs

/-- JS `s.trim()` on a character list: strip whitespace from both ends. -/
def trimChars (l : List Char) : List Char :=
  (trimLeftChars (trimLeftChars l.reverse).reverse)

/-- JS `s.toLowerCase().trim()` as used by `calculateNameSimilarity`
(ASCII case mapping). -/
def normName (s : String) : String :=
  ⟨trimChars (s.data.map Char.toLower)⟩

/-- `GooglePlacesProvider.mapPriceLevel` (`google.provider.ts`): a record
lookup followed by JS `|| 2`, under which the stored `0` for
`PRICE_LEVEL_FREE` is falsy. -/
def mapPriceLevel (priceLevel : String) : ℕ :=
  let mapping : String → Option ℕ := fun s =>
    if s = "PRICE_LEVEL_FREE" then some 0
    else if s = "PRICE_LEVEL_INEXPENSIVE" then some 1
    else if s = "PRICE_LEVEL_MODERATE" then some 2
    else if s = "PRICE_LEVEL_EXPENSIVE" then some 3
    else if s = "PRICE_LEVEL_VERY_EXPENSIVE" then some 4
    else none
  jsOrNat (mapping priceLevel) 2

/-- `HybridProvider.chooseBestName`. -/
def chooseBestName (osmName googleName : String) : String :=
  if googleName.length > osmName.length && strIncludes googleName osmName then
    googleName
  else if osmName.length > googleName.length && strIncludes osmName googleName then
    osmName
  else
    osmName

/-- `HybridProvider.levenshteinDistance`: the code fills the standard
unit-cost DP matrix; this is the same function in recursive form. -/
def levenshteinDistance : List Char → List Char → ℕ
  | [], bs => bs.length
  | as, [] => as.length
  | a :: as, b :: bs =>
    let cost : ℕ := if a == b then 0 else 1
    min (levenshteinDistance as (b :: bs) + 1)
      (min (levenshteinDistance (a :: as) bs + 1)
        (levenshteinDistance as bs + cost))
termination_by as bs => as.length + bs.length
decreasing_by all_goals simp_arith

/-- `HybridProvider.calculateNameSimilarity`. -/
def calculateNameSimilarity (name1 name2 : String) : ℚ :=
  let norm1 := normName name1
  let norm2 := normName name2
  if norm1 = norm2 then 1
  else if strIncludes norm1 norm2 || strIncludes norm2 norm1 then
    (Nat.min norm1.length norm2.length : ℚ) / (Nat.max norm1.length norm2.length : ℚ)
  else
    let d := levenshteinDistance norm1.data norm2.data
    let maxLength := Nat.max norm1.length norm2.length
    if maxLength = 0 then 0 else 1 - (d : ℚ) / (maxLength : ℚ)

/-- `HybridProvider.categoriesMatch`: the compatibility record (only three
keys are populated in the source) with fallback to exact equality. -/
def compatibleCategories : POICategory → Option (List POICategory)
  | .restaurant => some [.restaurant, .fast_food, .cafe]
  | .cafe => some [.cafe, .restaurant]
  | .bar => some [.bar, .pub, .nightclub]
  | _ => none

def categoriesMatch (osmCategory googleCategory : POICategory) : Bool :=
  match compatibleCategories osmCategory with
  | some compatible => compatible.contains googleCategory
  | none => osmCategory == googleCategory

/-- `HybridProvider.calculateMergeConfidence`. -/
def calculateMergeConfidence (distance nameSimilarity : ℚ) (categoryMatch : Bool) : ℚ :=
  let distanceScore := jsMax 0 (1 - distance / 200)
  let nameScore := nameSimilarity
  let categoryScore : ℚ := if categoryMatch then 1 else 3 / 10
  distanceScore * (4 / 10) + nameScore * (4 / 10) + categoryScore * (2 / 10)

/-- `MergeCandidate` from `hybrid.provider.ts`. -/
structure MergeCandidate where
  osmPlace : Place
  googlePlace : Place
  distance : ℚ
  nameSimilarity : ℚ
  confidence : ℚ
deriving DecidableEq, Repr

/-- One step of the loop body of `HybridProvider.findBestGoogleMatch`. -/
def considerCandidate (dist : Coordinates → Coordinates → ℚ) (osmPlace : Place)
    (bestMatch : Option MergeCandidate) (googlePlace : Place) : Option MergeCandidate :=
  let d := dist osmPlace.coordinates googlePlace.coordinates
  if d > 200 then bestMatch
  else
    let nameSimilarity := calculateNameSimilarity osmPlace.name googlePlace.name
    let categoryMatch := categoriesMatch osmPlace.category googlePlace.category
    let confidence := calculateMergeConfidence d nameSimilarity categoryMatch
    let candidate : MergeCandidate :=
      ⟨osmPlace, googlePlace, d, nameSimilarity, confidence⟩
    match bestMatch with
    | none => some candidate
    | some bm => if candidate.confidence > bm.confidence then some candidate else some bm

/-- `HybridProvider.findBestGoogleMatch`: fold of the loop body over the
Google list, starting from `bestMatch = null`. -/
def findBestGoogleMatch (dist : Coordinates → Coordinates → ℚ) (osmPlace : Place)
    (googlePlaces : List Place) : Option MergeCandidate :=
  googlePlaces.foldl (considerCandidate dist osmPlace) none

/-- JS `x || d` for an optional string: `undefined` and `""` both fall back. -/
def jsOrStr (x : Option String) (d : String) : String :=
  match x with
  | none => d
  | some s => if s = "" then d else s

/-- JS string truthiness filter: `""` and absent are falsy. -/
def jsStrTruthy (x : Option String) : Option String :=
  match x with
  | none => none
  | some s => if s = "" then none else some s

/-- `array.filter((x, i, arr) => arr.indexOf(x) === i)`: deduplicate keeping
the first occurrence of each element, in order. -/
def jsDedup (l : List String) : List String :=
  l.foldl (fun acc x => if x ∈ acc then acc else acc ++ [x]) []

/-- Spread-merge of the two optional contact objects:
`{...(osm.contact || {}), ...(google.contact || {})}` — a field of the
Google side overrides the OSM side's when present. -/
def mergeContact (osmContact googleContact : Option Contact) : Contact :=
  let o := osmContact.getD ⟨none, none, none⟩
  let g := googleContact.getD ⟨none, none, none⟩
  { phone := g.phone.orElse fun _ => o.phone
    website := g.website.orElse fun _ => o.website
    email := g.email.orElse fun _ => o.email }

/-- `HybridProvider.mergePlaceData`; `now` stands for `new Date()`. -/
def mergePlaceData (now : ℕ) (osmPlace googlePlace : Place) : Place :=
  let osmMetadata := osmPlace.metadata
  let googleMetadata := googlePlace.metadata
  let mergedContact := mergeContact (osmMetadata.bind (·.contact)) (googleMetadata.bind (·.contact))
  let osmFeatures := (osmMetadata.bind (·.features)).getD []
  let googleFeatures := (googleMetadata.bind (·.features)).getD []
  let mergedFeatures := jsDedup (osmFeatures ++ googleFeatures)
  { id := osmPlace.id
    name := chooseBestName osmPlace.name googlePlace.name
    category := osmPlace.category
    subcategory := osmPlace.subcategory
    coordinates := osmPlace.coordinates
    distance := osmPlace.distance
    address := (jsStrTruthy googlePlace.address).orElse fun _ => jsStrTruthy osmPlace.address
    description := (jsStrTruthy osmPlace.description).orElse fun _ => jsStrTruthy googlePlace.description
    metadata := some
      { source := .merged
        externalId := jsOrStr (osmMetadata.map (·.externalId)) osmPlace.id
        lastUpdated := now
        verified := true
        mergeStatus :=
          match osmMetadata.bind (·.mergeStatus) with
          | some s => if s = "" then some "merged" else some s
          | none => some "merged"
        osm := osmMetadata.bind (·.osm)
        google := googleMetadata.bind (·.google)
        contact := if mergedContact.isEmpty then none else some mergedContact
        hours := (googleMetadata.bind (·.hours)).orElse fun _ => osmMetadata.bind (·.hours)
        features := if mergedFeatures.length > 0 then some mergedFeatures else none } }

/-- The kept-as-is OSM branch of `mergeProviderData` (tag `osm-only`). -/
def keepOsmPlace (now : ℕ) (osmPlace : Place) : Place :=
  let m : PlaceMetadata :=
    match osmPlace.metadata with
    | some m => { m with source := .osm, mergeStatus := some "osm-only" }
    | none =>
      { source := .osm, externalId := osmPlace.id, lastUpdated := now,
        verified := false, osm := none, google := none, contact := none,
        hours := none, features := none, mergeStatus := some "osm-only" }
  { osmPlace with metadata := some m }

/-- The appended Google-only branch of `mergeProviderData` (tag `google-only`). -/
def keepGooglePlace (now : ℕ) (googlePlace : Place) : Place :=
  let m : PlaceMetadata :=
    match googlePlace.metadata with
    | some m => { m with source := .google, mergeStatus := some "google-only" }
    | none =>
      { source := .google, externalId := googlePlace.id, lastUpdated := now,
        verified := false, osm := none, google := none, contact := none,
        hours := none, features := none, mergeStatus := some "google-only" }
  { googlePlace with metadata := some m }

/-- `if (metadata.google?.rating) score += (rating / 5) * 0.3` — the JS
truthiness check makes a rating of `0` behave as absent. -/
def addRatingBoost (score : ℚ) : Option ℚ → ℚ
  | some r => if r = 0 then score else score + (r / 5) * (3 / 10)
  | none => score

/-- `if (metadata.google?.reviewCount) score += Math.min(reviewCount / 100, 0.2)`. -/
def addReviewBoost (score : ℚ) : Option ℚ → ℚ
  | some rc => if rc = 0 then score else score + jsMin (rc / 100) (2 / 10)
  | none => score

/-- `if (metadata.osm?.tags && Object.keys(metadata.osm.tags).length > 5) score += 0.1`. -/
def addTagsBoost (score : ℚ) : Option OsmDetail → ℚ
  | some od => if od.tagKeys.length > 5 then score + 1 / 10 else score
  | none => score

/-- `HybridProvider.calculateQualityScore`: base 0.5, the three boosts above
plus 0.1 for a merged source, capped at 1 by `Math.min`. -/
def calculateQualityScore (place : Place) : ℚ :=
  match place.metadata with
  | none => 1 / 2
  | some metadata =>
    let score0 : ℚ := 1 / 2
    let score1 := addRatingBoost score0 (metadata.google.bind (·.rating))
    let score2 := addReviewBoost score1 (metadata.google.bind (·.reviewCount))
    let score3 := if metadata.source = .merged then score2 + 1 / 10 else score2
    let score4 := addTagsBoost score3 metadata.osm
    jsMin score4 1

/-- State threaded through phase 1 of `mergeProviderData`:
accumulated places, ids of consumed Google places, enrichment count. -/
structure MergeState where
  mergedPlaces : List Place
  usedGooglePlaces : List String
  googleEnrichments : ℕ
deriving DecidableEq, Repr

/-- Loop body of phase 1 of `HybridProvider.mergeProviderData`. -/
def mergeOsmStep (dist : Coordinates → Coordinates → ℚ) (now : ℕ)
    (googlePlaces : List Place) (st : MergeState) (osmPlace : Place) : MergeState :=
  match findBestGoogleMatch dist osmPlace googlePlaces with
  | some googleMatch =>
    if googleMatch.confidence > 7 / 10 then
      { mergedPlaces := st.mergedPlaces ++ [mergePlaceData now osmPlace googleMatch.googlePlace]
        usedGooglePlaces := st.usedGooglePlaces ++ [googleMatch.googlePlace.id]
        googleEnrichments := st.googleEnrichments + 1 }
    else
      { st with mergedPlaces := st.mergedPlaces ++ [keepOsmPlace now osmPlace] }
  | none => { st with mergedPlaces := st.mergedPlaces ++ [keepOsmPlace now osmPlace] }

/-- Loop body of phase 2 of `HybridProvider.mergeProviderData`. -/
def addGoogleStep (now : ℕ) (usedGooglePlaces : List String)
    (acc : List Place × ℕ) (googlePlace : Place) : List Place × ℕ :=
  if usedGooglePlaces.contains googlePlace.id then acc
  else (acc.1 ++ [keepGooglePlace now googlePlace], acc.2 + 1)

/-- Stable insertion into a sorted list: `x` goes before the first element
`y` with `le x y`. -/
def insSorted (le : Place → Place → Bool) (x : Place) : List Place → List Place
  | [] => [x]
  | y :: ys => if le x y then x :: y :: ys else y :: insSorted le x ys

/-- Stable insertion sort. `Array.prototype.sort` with a consistent
comparator is a stable sort (ECMAScript 2019+), and for a total preorder all
stable sorts compute the same list, so this models the JS sort exactly. -/
def insertionSort (le : Place → Place → Bool) : List Place → List Place
  | [] => []
  | x :: xs => insSorted le x (insertionSort le xs)

/-- The comparator `(a, b) => scoreB - scoreA` of `mergeProviderData`:
`a` may precede `b` iff `score(b) ≤ score(a)` (descending). -/
def qualityDesc (a b : Place) : Bool :=
  calculateQualityScore b ≤ calculateQualityScore a

/-- Phases 1 and 2 of `HybridProvider.mergeProviderData`: the combined list
before sorting/truncation, together with `googleEnrichments`. -/
def mergePhases (dist : Coordinates → Coordinates → ℚ) (now : ℕ)
    (osmPlaces googlePlaces : List Place) : List Place × ℕ :=
  let st := osmPlaces.foldl (mergeOsmStep dist now googlePlaces) ⟨[], [], 0⟩
  googlePlaces.foldl (addGoogleStep now st.usedGooglePlaces)
    (st.mergedPlaces, st.googleEnrichments)

/-- `HybridProvider.mergeProviderData`: phase 1 (enhance OSM places), phase 2
(append unconsumed Google places), stable sort descending by quality score,
truncation to `request.limit || 20` (the `limit` parameter). Returns
`(mergedPlaces, googleEnrichments)`. -/
def mergeProviderData (dist : Coordinates → Coordinates → ℚ) (now : ℕ)
    (osmPlaces googlePlaces : List Place) (limit : ℕ) : List Place × ℕ :=
  let (allPlaces, n2) := mergePhases dist now osmPlaces googlePlaces
  ((insertionSort qualityDesc allPlaces).take limit, n2)

/-- `MOOD_CATEGORY_MAPPING` from `types.ts`. -/
def MOOD_CATEGORY_MAPPING : Mood → List POICategory
  | .energetic =>
    [.park, .fitness_centre, .swimming_pool, .sports_centre, .beach, .viewpoint,
     .restaurant, .cafe, .atm, .toilets]
  | .relaxed =>
    [.spa, .park, .garden, .nature_reserve, .cafe, .library, .beach,
     .pharmacy, .toilets]
  | .curious =>
    [.museum, .gallery, .attraction, .monument, .castle, .library, .viewpoint,
     .cafe, .restaurant, .atm, .toilets]
  | .hungry =>
    [.restaurant, .cafe, .fast_food, .ice_cream, .marketplace, .market,
     .atm, .toilets]
  | .cultural =>
    [.museum, .gallery, .theatre, .cinema, .monument, .castle, .library,
     .restaurant, .cafe, .shop, .atm, .toilets]

/-- `Object.values(POICategory)` in declaration order. -/
def allPOICategories : List POICategory :=
  [.restaurant, .cafe, .bar, .fast_food, .ice_cream, .marketplace,
   .museum, .gallery, .attraction, .monument, .castle, .theatre, .cinema, .library,
   .park, .fitness_centre, .swimming_pool, .sports_centre, .golf_course, .marina,
   .beach, .viewpoint, .spa, .garden, .nature_reserve,
   .shop, .mall, .market, .department_store,
   .bank, .atm, .pharmacy, .hospital, .toilets, .fuel, .post_office,
   .pub, .nightclub, .casino,
   .bus_station, .subway, .taxi, .car_rental, .parking]

/-- `LocationSearchRequest` from `types.ts` (all non-coordinate fields
optional). -/
structure LocationSearchRequest where
  latitude : ℚ
  longitude : ℚ
  radius : Option ℚ
  categories : Option (List POICategory)
  mood : Option Mood
  limit : Option ℕ
  excludeChains : Option Bool
deriving DecidableEq, Repr

/-- `Required<LocationSearchRequest>`: the result of `normalizeRequest`. -/
structure NormalizedRequest where
  latitude : ℚ
  longitude : ℚ
  radius : ℚ
  categories : List POICategory
  mood : Mood
  limit : ℕ
  excludeChains : Bool
deriving DecidableEq, Repr

/-- `LocationServiceConfig` fields used by the orchestrator. -/
structure LocationServiceConfig where
  enableCaching : Bool
  cacheTimeout : ℤ
  defaultRadius : ℚ
  maxRadius : ℚ
  resultsPerCategory : ℕ
deriving DecidableEq, Repr

/-- The defaults the `LocationService` constructor falls back to. -/
def defaultServiceConfig : LocationServiceConfig :=
  { enableCaching := true, cacheTimeout := 300, defaultRadius := 2000,
    maxRadius := 10000, resultsPerCategory := 10 }

/-- `LocationService.normalizeRequest`. The mood lookup happens on the raw
`request.mood` before the `|| 'curious'` default, and `request.radius || d`
makes a zero or absent radius fall back to the default radius. -/
def normalizeRequest (cfg : LocationServiceConfig) (request : LocationSearchRequest) :
    NormalizedRequest :=
  let categories : Option (List POICategory) :=
    match request.categories with
    | some cs => some cs
    | none =>
      match request.mood with
      | some m => some (MOOD_CATEGORY_MAPPING m)
      | none => none
  { latitude := request.latitude
    longitude := request.longitude
    radius := jsMin (jsOrQ request.radius cfg.defaultRadius) cfg.maxRadius
    categories := categories.getD allPOICategories
    mood := request.mood.getD .curious
    limit := jsOrNat request.limit cfg.resultsPerCategory
    excludeChains := request.excludeChains.getD false }

/-- `LocationSearchResponse.metadata` from `types.ts`. -/
structure ResponseMetadata where
  provider : String
  responseTime : ℕ
  totalResults : ℕ
  searchRadius : ℚ
  categoriesSearched : List String
  cached : Option Bool
deriving DecidableEq, Repr

structure LocationSearchResponse where
  places : List Place
  metadata : ResponseMetadata
deriving DecidableEq, Repr

/-- `CacheEntry` from `location.service.ts`. -/
structure CacheEntry where
  data : LocationSearchResponse
  timestamp : ℤ
deriving DecidableEq, Repr

/-- A JS `Map<string, CacheEntry>`: insertion-ordered association list with
unique keys; `Map.prototype.set` on an existing key keeps its position, on a
fresh key appends; `keys().next().value` is the head key. -/
abbrev CacheMap := List (String × CacheEntry)

def mapGet (cache : CacheMap) (key : String) : Option CacheEntry :=
  (cache.find? fun p => p.1 == key).map Prod.snd

def mapSet (cache : CacheMap) (key : String) (v : CacheEntry) : CacheMap :=
  if cache.any fun p => p.1 == key then
    cache.map fun p => if p.1 == key then (key, v) else p
  else
    cache ++ [(key, v)]

def mapDelete (cache : CacheMap) (key : String) : CacheMap :=
  cache.filter fun p => p.1 != key

/-- `LocationService.getFromCache`. On a non-expired hit the code executes
`entry.data.metadata.cached = true; return entry.data`: the stored response
object itself is mutated and returned (no clone), so the cache afterwards
holds the marked response under the same key and timestamp. -/
def getFromCache (cfg : LocationServiceConfig) (cache : CacheMap) (key : String)
    (now : ℤ) : Option LocationSearchResponse × CacheMap :=
  match mapGet cache key with
  | none => (none, cache)
  | some entry =>
    if now - entry.timestamp > cfg.cacheTimeout * 1000 then
      (none, mapDelete cache key)
    else
      let marked :=
        { entry.data with metadata := { entry.data.metadata with cached := some true } }
      (some marked, mapSet cache key { entry with data := marked })

/-- The "simple cache cleanup" of `setCache`: if the map holds more than 100
entries, delete the first (oldest-inserted) key — guarded by JS truthiness
of the key, under which an empty-string key would skip the eviction. -/
def evictIfOver (c1 : CacheMap) : CacheMap :=
  if c1.length > 100 then
    match c1.head? with
    | some (oldestKey, _) => if oldestKey = "" then c1 else mapDelete c1 oldestKey
    | none => c1
  else c1

/-- `LocationService.setCache`. The deep clone is value-copying (modelled by
value semantics) with `cached` forced to `false`; insertion is followed by
the cleanup above. -/
def setCache (cache : CacheMap) (key : String) (data : LocationSearchResponse)
    (now : ℤ) : CacheMap :=
  evictIfOver (mapSet cache key
    ⟨{ data with metadata := { data.metadata with cached := some false } }, now⟩)

/-- The `catch` block of `searchNearby`: fall back to the database results
when the store returned anything, else raise the 503 `AppError`. -/
def handleProviderFailure (dbResults : LocationSearchResponse) (e : String) :
    Except (String × ℕ) LocationSearchResponse :=
  if dbResults.places.length > 0 then
    .ok { dbResults with
            metadata := { dbResults.metadata with provider := "database-fallback" } }
  else
    .error ("Location search failed: " ++ e, 503)

/-- `searchNearby` after a cache miss: database sufficiency check, provider
call, fallback chain. -/
def searchAfterMiss (cfg : LocationServiceConfig) (cache1 : CacheMap) (key : String)
    (now : ℤ) (dbResults : LocationSearchResponse)
    (providerResult : Except String LocationSearchResponse) (limit : ℕ) :
    Except (String × ℕ) LocationSearchResponse × CacheMap :=
  if dbResults.places.length ≥ limit then
    let response : LocationSearchResponse :=
      { places := dbResults.places.take limit
        metadata := { dbResults.metadata with provider := "database", cached := some false } }
    (.ok response, if cfg.enableCaching then setCache cache1 key response now else cache1)
  else
    match providerResult with
    | .ok providerResponse =>
      (.ok providerResponse,
       if cfg.enableCaching then setCache cache1 key providerResponse now else cache1)
    | .error e => (handleProviderFailure dbResults e, cache1)

/-- `LocationService.searchNearby` after request normalization and cache-key
generation: the cache lookup, the database-sufficiency check, the provider
call and the fallback chain. The database query result and the provider
outcome are external effects passed as inputs (`dbResults`,
`providerResult`); the best-effort database write-back does not influence
the returned value. Returns the response (or the `AppError` message and
HTTP status) together with the final cache state. -/
def searchNearby (cfg : LocationServiceConfig) (cache : CacheMap) (key : String)
    (now : ℤ) (dbResults : LocationSearchResponse)
    (providerResult : Except String LocationSearchResponse) (limit : ℕ) :
    Except (String × ℕ) LocationSearchResponse × CacheMap :=
  match (if cfg.enableCaching then getFromCache cfg cache key now else (none, cache)) with
  | (some cached, cache1) => (.ok cached, cache1)
  | (none, cache1) => searchAfterMiss cfg cache1 key now dbResults providerResult limit

/-! ## Theorems -/

/-- The invariant the candidate loop preserves: any candidate held in
`bestMatch` records the distance computed by `dist` for its pair and that
distance passed the 200 m pruning guard. -/
def CandidateOk (dist : Coordinates → Coordinates → ℚ) (osmPlace : Place)
    (acc : Option MergeCandidate) : Prop :=
  ∀ c, acc = some c →
    c.distance = dist osmPlace.coordinates c.googlePlace.coordinates ∧ c.distance ≤ 200

theorem considerCandidate_ok (dist : Coordinates → Coordinates → ℚ) (osmPlace : Place)
    (acc : Option MergeCandidate) (googlePlace : Place)
    (hacc : CandidateOk dist osmPlace acc) :
    CandidateOk dist osmPlace (considerCandidate dist osmPlace acc googlePlace) := by
  intro c hc
  unfold considerCandidate at hc
  by_cases hd : dist osmPlace.coordinates googlePlace.coordinates > 200
  · rw [if_pos hd] at hc
    exact hacc c hc
  · rw [if_neg hd] at hc
    cases acc with
    | none =>
      simp only [Option.some.injEq] at hc
      subst hc
      exact ⟨rfl, le_of_not_lt hd⟩
    | some bm =>
      simp only at hc
      split at hc
      · simp only [Option.some.injEq] at hc
        subst hc
        exact ⟨rfl, le_of_not_lt hd⟩
      · exact hacc c hc

theorem foldl_considerCandidate_ok (dist : Coordinates → Coordinates → ℚ)
    (osmPlace : Place) :
    ∀ (googlePlaces : List Place) (acc : Option MergeCandidate),
      CandidateOk dist osmPlace acc →
      CandidateOk dist osmPlace
        (googlePlaces.foldl (considerCandidate dist osmPlace) acc)
  | [], _, hacc => hacc
  | g :: gs, acc, hacc =>
    foldl_considerCandidate_ok dist osmPlace gs
      (considerCandidate dist osmPlace acc g)
      (considerCandidate_ok dist osmPlace acc g hacc)

/-- C1: whatever best match `findBestGoogleMatch` returns pairs the OSM
place with a Google place whose computed distance is at most 200 m; hence
no merge candidate is ever formed for a pair more than 200 m apart, and the
OSM place can only merge with a commercial place within 200 m. This holds
for every distance function, in particular the haversine
`calculateDistance`. -/
theorem findBestGoogleMatch_within_200m (dist : Coordinates → Coordinates → ℚ)
    (osmPlace : Place) (googlePlaces : List Place) (c : MergeCandidate)
    (h : findBestGoogleMatch dist osmPlace googlePlaces = some c) :
    c.distance = dist osmPlace.coordinates c.googlePlace.coordinates ∧
    c.distance ≤ 200 ∧
    ∀ g ∈ googlePlaces,
      dist osmPlace.coordinates g.coordinates > 200 → c.googlePlace ≠ g := by
  have hok := foldl_considerCandidate_ok dist osmPlace googlePlaces none
    (fun c hc => by cases hc) c h
  refine ⟨hok.1, hok.2, ?_⟩
  intro g _ hfar heq
  rw [heq] at hok
  exact absurd (hok.1 ▸ hok.2) (not_le.mpr hfar)

/-- A small concrete OSM place used by witnesses. -/
def wOsmPlace : Place :=
  { id := "osm_node_1", name := "a", category := .cafe, subcategory := "cafe",
    coordinates := ⟨0, 0⟩, distance := none, address := none, description := none,
    metadata := none }

/-- A small concrete Google place used by witnesses. -/
def wGooglePlace : Place :=
  { id := "google_b", name := "a", category := .cafe, subcategory := "cafe",
    coordinates := ⟨0, 0⟩, distance := none, address := none, description := none,
    metadata := none }

/-- The candidate `findBestGoogleMatch` builds for `wOsmPlace` and
`wGooglePlace` under the constant-zero distance function. -/
def wCandidate : MergeCandidate :=
  ⟨wOsmPlace, wGooglePlace, 0,
   calculateNameSimilarity wOsmPlace.name wGooglePlace.name,
   calculateMergeConfidence 0
     (calculateNameSimilarity wOsmPlace.name wGooglePlace.name)
     (categoriesMatch wOsmPlace.category wGooglePlace.category)⟩

/-- Witness for `findBestGoogleMatch_within_200m` at a concrete input: with
the constant-zero distance function and one Google place, the loop returns
the candidate pairing the two places at distance 0. -/
theorem findBestGoogleMatch_within_200m_witness :
    wCandidate.distance =
      (fun _ _ => (0 : ℚ)) wOsmPlace.coordinates wGooglePlace.coordinates ∧
    wCandidate.distance ≤ 200 ∧
    ∀ g ∈ [wGooglePlace],
      (fun _ _ => (0 : ℚ)) wOsmPlace.coordinates g.coordinates > 200 →
      wCandidate.googlePlace ≠ g :=
  findBestGoogleMatch_within_200m (fun _ _ => 0) wOsmPlace [wGooglePlace]
    wCandidate rfl

/-- Running the merge engine on one OSM place and one Google place whose
candidate passes the distance guard and the 0.7 confidence threshold yields
exactly the merged record (and one enrichment). -/
theorem mergeProviderData_singleton (dist : Coordinates → Coordinates → ℚ) (now : ℕ)
    (o g : Place) (limit : ℕ) (hlim : 1 ≤ limit)
    (hd : ¬ dist o.coordinates g.coordinates > 200)
    (hconf : calculateMergeConfidence (dist o.coordinates g.coordinates)
        (calculateNameSimilarity o.name g.name)
        (categoriesMatch o.category g.category) > 7 / 10) :
    mergeProviderData dist now [o] [g] limit = ([mergePlaceData now o g], 1) := by
  obtain ⟨n, rfl⟩ : ∃ n, limit = n + 1 := ⟨limit - 1, by omega⟩
  unfold mergeProviderData mergePhases
  simp only [List.foldl, mergeOsmStep, findBestGoogleMatch, considerCandidate,
    if_neg hd, if_pos hconf, addGoogleStep]
  simp [insertionSort, insSorted, List.take]

/-- C2 (amended): for an OSM place and a Google place at identical
coordinates (where the distance computation returns 0) with identical
normalized names, the name similarity is 1 and the merge confidence is
`0.4·1 + 0.4·1 + 0.2·categoryScore`: exactly 1 when the categories are
compatible and 0.86 when they are not. In both cases it exceeds the 0.7
threshold, so the pair merges: on singleton inputs the merge engine outputs
exactly the merged record. -/
theorem same_coords_same_name_merges (dist : Coordinates → Coordinates → ℚ)
    (o g : Place) (now : ℕ) (limit : ℕ) (hlim : 1 ≤ limit)
    (hc : o.coordinates = g.coordinates) (hdist : ∀ c, dist c c = 0)
    (hname : normName o.name = normName g.name) :
    calculateNameSimilarity o.name g.name = 1 ∧
    (categoriesMatch o.category g.category = true →
      calculateMergeConfidence (dist o.coordinates g.coordinates)
        (calculateNameSimilarity o.name g.name)
        (categoriesMatch o.category g.category) = 1) ∧
    (categoriesMatch o.category g.category = false →
      calculateMergeConfidence (dist o.coordinates g.coordinates)
        (calculateNameSimilarity o.name g.name)
        (categoriesMatch o.category g.category) = 43 / 50) ∧
    calculateMergeConfidence (dist o.coordinates g.coordinates)
      (calculateNameSimilarity o.name g.name)
      (categoriesMatch o.category g.category) > 7 / 10 ∧
    (mergeProviderData dist now [o] [g] limit).1 = [mergePlaceData now o g] := by
  have hd0 : dist o.coordinates g.coordinates = 0 := by rw [hc]; exact hdist _
  have hsim : calculateNameSimilarity o.name g.name = 1 := by
    unfold calculateNameSimilarity
    rw [if_pos hname]
  have hconf : ∀ b : Bool, calculateMergeConfidence 0 1 b =
      if b then 1 else 43 / 50 := by
    intro b
    cases b <;> norm_num [calculateMergeConfidence, jsMax]
  have hgt : calculateMergeConfidence (dist o.coordinates g.coordinates)
      (calculateNameSimilarity o.name g.name)
      (categoriesMatch o.category g.category) > 7 / 10 := by
    rw [hd0, hsim, hconf]
    cases categoriesMatch o.category g.category <;> norm_num
  refine ⟨hsim, ?_, ?_, hgt, ?_⟩
  · intro hcm; rw [hd0, hsim, hconf, hcm]; rfl
  · intro hcm; rw [hd0, hsim, hconf, hcm]; rfl
  · have := mergeProviderData_singleton dist now o g limit hlim
      (by rw [hd0]; norm_num) hgt
    rw [this]

/-- An OSM place at the same spot and with the same name as
`c2GooglePlace`, but categorised as a park. -/
def c2OsmPlace : Place :=
  { id := "osm_node_2", name := "old town hall", category := .park,
    subcategory := "park", coordinates := ⟨10, 20⟩, distance := none,
    address := none, description := none, metadata := none }

/-- A Google place at the same spot and with the same name as `c2OsmPlace`,
but categorised as a museum. -/
def c2GooglePlace : Place :=
  { id := "google_c", name := "old town hall", category := .museum,
    subcategory := "museum", coordinates := ⟨10, 20⟩, distance := none,
    address := none, description := none, metadata := none }

/-- Counterexample to C2 as stated: two places at identical coordinates with
identical normalized names whose computed merge confidence is 0.86, not 1.0
(their categories — park and museum — are not compatible, so the category
score contributes 0.2·0.3, not 0.2·1). -/
theorem same_coords_same_name_confidence_not_one :
    c2OsmPlace.coordinates = c2GooglePlace.coordinates ∧
    normName c2OsmPlace.name = normName c2GooglePlace.name ∧
    calculateMergeConfidence
      ((fun _ _ => (0 : ℚ)) c2OsmPlace.coordinates c2GooglePlace.coordinates)
      (calculateNameSimilarity c2OsmPlace.name c2GooglePlace.name)
      (categoriesMatch c2OsmPlace.category c2GooglePlace.category) = 43 / 50 ∧
    (43 / 50 : ℚ) ≠ 1 := by
  refine ⟨by decide, by decide, ?_, by norm_num⟩
  have h1 : calculateNameSimilarity c2OsmPlace.name c2GooglePlace.name = 1 := rfl
  have h2 : categoriesMatch c2OsmPlace.category c2GooglePlace.category = false := rfl
  show calculateMergeConfidence 0
    (calculateNameSimilarity c2OsmPlace.name c2GooglePlace.name)
    (categoriesMatch c2OsmPlace.category c2GooglePlace.category) = 43 / 50
  rw [h1, h2]
  norm_num [calculateMergeConfidence, jsMax]

/-- Witness for `same_coords_same_name_merges` at concrete places with equal
names and compatible (equal) categories. -/
theorem same_coords_same_name_merges_witness :
    calculateNameSimilarity wOsmPlace.name wGooglePlace.name = 1 ∧
    (categoriesMatch wOsmPlace.category wGooglePlace.category = true →
      calculateMergeConfidence ((fun _ _ => (0 : ℚ)) wOsmPlace.coordinates wGooglePlace.coordinates)
        (calculateNameSimilarity wOsmPlace.name wGooglePlace.name)
        (categoriesMatch wOsmPlace.category wGooglePlace.category) = 1) ∧
    (categoriesMatch wOsmPlace.category wGooglePlace.category = false →
      calculateMergeConfidence ((fun _ _ => (0 : ℚ)) wOsmPlace.coordinates wGooglePlace.coordinates)
        (calculateNameSimilarity wOsmPlace.name wGooglePlace.name)
        (categoriesMatch wOsmPlace.category wGooglePlace.category) = 43 / 50) ∧
    calculateMergeConfidence ((fun _ _ => (0 : ℚ)) wOsmPlace.coordinates wGooglePlace.coordinates)
      (calculateNameSimilarity wOsmPlace.name wGooglePlace.name)
      (categoriesMatch wOsmPlace.category wGooglePlace.category) > 7 / 10 ∧
    (mergeProviderData (fun _ _ => 0) 7 [wOsmPlace] [wGooglePlace] 1).1 =
      [mergePlaceData 7 wOsmPlace wGooglePlace] :=
  same_coords_same_name_merges (fun _ _ => 0) wOsmPlace wGooglePlace 7 1
    (by omega) rfl (fun _ => rfl) rfl

/-- `chooseBestName` in the spec's phrasing: the longer name wins only if it
contains the shorter one; otherwise the OSM name is kept (equal lengths keep
the OSM name). -/
theorem chooseBestName_eq_spec (osmName googleName : String) :
    chooseBestName osmName googleName =
      (let longer := if osmName.length ≥ googleName.length then osmName else googleName
       let shorter := if osmName.length ≥ googleName.length then googleName else osmName
       if osmName.length ≠ googleName.length ∧ strIncludes longer shorter = true
       then longer else osmName) := by
  unfold chooseBestName
  by_cases hog : osmName.length ≥ googleName.length
  · by_cases heq : osmName.length = googleName.length
    · have h1 : ¬ (googleName.length > osmName.length) := by omega
      have h2 : ¬ (osmName.length > googleName.length) := by omega
      simp [h1, h2, heq, hog]
    · have hgt : osmName.length > googleName.length := by omega
      have h1 : ¬ (googleName.length > osmName.length) := by omega
      by_cases hinc : strIncludes osmName googleName = true
      · simp [h1, hgt, hinc, heq, hog]
      · simp [h1, hgt, hinc, heq, hog]
  · have hlt : osmName.length < googleName.length := by omega
    have hneq : osmName.length ≠ googleName.length := by omega
    have h2 : ¬ (osmName.length > googleName.length) := by omega
    by_cases hinc : strIncludes googleName osmName = true
    · simp [hlt, hinc, hneq, hog]
    · simp [hlt, hinc, hneq, hog, h2]

/-- The free-source place of the spec's end-to-end example. -/
def centralCafeOsm : Place :=
  { id := "osm_node_100", name := "Central Cafe", category := .cafe,
    subcategory := "cafe", coordinates := ⟨40, -73⟩, distance := none,
    address := none, description := none, metadata := none }

/-- The commercial-source place of the spec's end-to-end example
(40.00022, −73.00012; ~28 m away). -/
def centralCafeGoogle : Place :=
  { id := "google_xyz", name := "Central Cafe & Bakery", category := .cafe,
    subcategory := "cafe",
    coordinates := ⟨4000022 / 100000, -7300012 / 100000⟩, distance := none,
    address := none, description := none, metadata := none }

/-- C3: a merged place takes its id and coordinates from the OSM place, and
its name is the longer of the two names exactly when that longer name
contains the shorter one, else the OSM name; on the spec's end-to-end
example the merged record keeps the OSM id and coordinates and is named
"Central Cafe & Bakery". -/
theorem mergePlaceData_osm_identity_and_name :
    (∀ (now : ℕ) (o g : Place),
      (mergePlaceData now o g).id = o.id ∧
      (mergePlaceData now o g).coordinates = o.coordinates ∧
      (mergePlaceData now o g).name =
        (let longer := if o.name.length ≥ g.name.length then o.name else g.name
         let shorter := if o.name.length ≥ g.name.length then g.name else o.name
         if o.name.length ≠ g.name.length ∧ strIncludes longer shorter = true
         then longer else o.name)) ∧
    (mergePlaceData 0 centralCafeOsm centralCafeGoogle).id = centralCafeOsm.id ∧
    (mergePlaceData 0 centralCafeOsm centralCafeGoogle).coordinates =
      centralCafeOsm.coordinates ∧
    (mergePlaceData 0 centralCafeOsm centralCafeGoogle).name = "Central Cafe & Bakery" := by
  refine ⟨?_, rfl, rfl, ?_⟩
  · intro now o g
    exact ⟨rfl, rfl, chooseBestName_eq_spec o.name g.name⟩
  · show chooseBestName centralCafeOsm.name centralCafeGoogle.name = "Central Cafe & Bakery"
    decide

theorem mem_insSorted (le : Place → Place → Bool) (x : Place) :
    ∀ (l : List Place) (p : Place), p ∈ insSorted le x l ↔ p = x ∨ p ∈ l
  | [], p => by simp [insSorted]
  | y :: ys, p => by
    simp only [insSorted]
    split
    · simp [List.mem_cons]
    · simp only [List.mem_cons, mem_insSorted le x ys p]
      tauto

theorem mem_insertionSort (le : Place → Place → Bool) :
    ∀ (l : List Place) (p : Place), p ∈ insertionSort le l ↔ p ∈ l
  | [], p => by simp [insertionSort]
  | x :: xs, p => by
    simp only [insertionSort, mem_insSorted, mem_insertionSort le xs p, List.mem_cons]

/-- Each phase-1 step appends exactly one place: the merged record of a
qualifying candidate, or the kept OSM record. -/
theorem mergeOsmStep_shape (dist : Coordinates → Coordinates → ℚ) (now : ℕ)
    (googlePlaces : List Place) (st : MergeState) (o : Place) :
    (∃ cand, findBestGoogleMatch dist o googlePlaces = some cand ∧
      cand.confidence > 7 / 10 ∧
      (mergeOsmStep dist now googlePlaces st o).mergedPlaces =
        st.mergedPlaces ++ [mergePlaceData now o cand.googlePlace]) ∨
    (mergeOsmStep dist now googlePlaces st o).mergedPlaces =
      st.mergedPlaces ++ [keepOsmPlace now o] := by
  cases h : findBestGoogleMatch dist o googlePlaces with
  | none => right; simp [mergeOsmStep, h]
  | some cand =>
    by_cases hc : cand.confidence > 7 / 10
    · left; exact ⟨cand, rfl, hc, by simp [mergeOsmStep, h, hc]⟩
    · right; simp [mergeOsmStep, h, hc]

theorem phase1_mono (dist : Coordinates → Coordinates → ℚ) (now : ℕ)
    (googlePlaces : List Place) :
    ∀ (osmPlaces : List Place) (st : MergeState) (p : Place),
      p ∈ st.mergedPlaces →
      p ∈ (osmPlaces.foldl (mergeOsmStep dist now googlePlaces) st).mergedPlaces
  | [], _, _ => fun h => h
  | o :: os, st, p => fun h => by
    apply phase1_mono dist now googlePlaces os (mergeOsmStep dist now googlePlaces st o) p
    rcases mergeOsmStep_shape dist now googlePlaces st o with ⟨cand, _, _, heq⟩ | heq <;>
      rw [heq] <;> exact List.mem_append_left _ h

theorem phase1_mem (dist : Coordinates → Coordinates → ℚ) (now : ℕ)
    (googlePlaces : List Place) :
    ∀ (osmPlaces : List Place) (st : MergeState) (p : Place),
      p ∈ (osmPlaces.foldl (mergeOsmStep dist now googlePlaces) st).mergedPlaces →
      p ∈ st.mergedPlaces ∨
      (∃ o ∈ osmPlaces, ∃ cand, findBestGoogleMatch dist o googlePlaces = some cand ∧
        cand.confidence > 7 / 10 ∧ p = mergePlaceData now o cand.googlePlace) ∨
      (∃ o ∈ osmPlaces, p = keepOsmPlace now o)
  | [], _, _ => fun h => Or.inl h
  | o :: os, st, p => fun h => by
    have ih := phase1_mem dist now googlePlaces os
      (mergeOsmStep dist now googlePlaces st o) p h
    rcases ih with hbase | hm | hk
    · rcases mergeOsmStep_shape dist now googlePlaces st o with ⟨cand, hf, hc, heq⟩ | heq
      · rw [heq] at hbase
        rcases List.mem_append.mp hbase with h1 | h2
        · exact Or.inl h1
        · exact Or.inr (Or.inl ⟨o, by simp, cand, hf, hc, by simpa using h2⟩)
      · rw [heq] at hbase
        rcases List.mem_append.mp hbase with h1 | h2
        · exact Or.inl h1
        · exact Or.inr (Or.inr ⟨o, by simp, by simpa using h2⟩)
    · obtain ⟨o', ho', rest⟩ := hm
      exact Or.inr (Or.inl ⟨o', List.mem_cons_of_mem _ ho', rest⟩)
    · obtain ⟨o', ho', rest⟩ := hk
      exact Or.inr (Or.inr ⟨o', List.mem_cons_of_mem _ ho', rest⟩)

theorem phase1_keeps (dist : Coordinates → Coordinates → ℚ) (now : ℕ)
    (googlePlaces : List Place) :
    ∀ (osmPlaces : List Place) (st : MergeState) (o : Place), o ∈ osmPlaces →
      (∀ cand, findBestGoogleMatch dist o googlePlaces = some cand →
        ¬ cand.confidence > 7 / 10) →
      keepOsmPlace now o ∈
        (osmPlaces.foldl (mergeOsmStep dist now googlePlaces) st).mergedPlaces
  | [], _, o => fun h => absurd h (List.not_mem_nil o)
  | o' :: os, st, o => fun h hno => by
    rcases List.mem_cons.mp h with rfl | htail
    · have heq : (mergeOsmStep dist now googlePlaces st o).mergedPlaces =
          st.mergedPlaces ++ [keepOsmPlace now o] := by
        rcases mergeOsmStep_shape dist now googlePlaces st o with ⟨cand, hf, hc, _⟩ | heq
        · exact absurd hc (hno cand hf)
        · exact heq
      show keepOsmPlace now o ∈
        (os.foldl (mergeOsmStep dist now googlePlaces)
          (mergeOsmStep dist now googlePlaces st o)).mergedPlaces
      apply phase1_mono dist now googlePlaces os
      rw [heq]
      exact List.mem_append_right _ (by simp)
    · exact phase1_keeps dist now googlePlaces os _ o htail hno

theorem phase2_mono (now : ℕ) (used : List String) :
    ∀ (googlePlaces : List Place) (acc : List Place × ℕ) (p : Place),
      p ∈ acc.1 → p ∈ (googlePlaces.foldl (addGoogleStep now used) acc).1
  | [], _, _ => fun h => h
  | g :: gs, acc, p => fun h => by
    apply phase2_mono now used gs (addGoogleStep now used acc g) p
    unfold addGoogleStep
    split
    · exact h
    · exact List.mem_append_left _ h

theorem phase2_mem (now : ℕ) (used : List String) :
    ∀ (googlePlaces : List Place) (acc : List Place × ℕ) (p : Place),
      p ∈ (googlePlaces.foldl (addGoogleStep now used) acc).1 →
      p ∈ acc.1 ∨ ∃ g ∈ googlePlaces, p = keepGooglePlace now g
  | [], _, _ => fun h => Or.inl h
  | g :: gs, acc, p => fun h => by
    have ih := phase2_mem now used gs (addGoogleStep now used acc g) p h
    rcases ih with hbase | ⟨g', hg', hp⟩
    · unfold addGoogleStep at hbase
      split at hbase
      · exact Or.inl hbase
      · rcases List.mem_append.mp hbase with h1 | h2
        · exact Or.inl h1
        · exact Or.inr ⟨g, by simp, by simpa using h2⟩
    · exact Or.inr ⟨g', List.mem_cons_of_mem _ hg', hp⟩

theorem phase2_keeps (now : ℕ) (used : List String) :
    ∀ (googlePlaces : List Place) (acc : List Place × ℕ) (g : Place),
      g ∈ googlePlaces → used.contains g.id = false →
      keepGooglePlace now g ∈ (googlePlaces.foldl (addGoogleStep now used) acc).1
  | [], _, g => fun h => absurd h (List.not_mem_nil g)
  | g' :: gs, acc, g => fun h hin => by
    rcases List.mem_cons.mp h with rfl | htail
    · show keepGooglePlace now g ∈
        (gs.foldl (addGoogleStep now used) (addGoogleStep now used acc g)).1
      apply phase2_mono now used gs
      unfold addGoogleStep
      rw [if_neg (by rw [hin]; simp)]
      exact List.mem_append_right _ (by simp)
    · exact phase2_keeps now used gs _ g htail hin

theorem mergePlaceData_status (now : ℕ) (o g : Place)
    (h : ∀ m0, o.metadata = some m0 → m0.mergeStatus = none) :
    ∃ m, (mergePlaceData now o g).metadata = some m ∧
      m.source = .merged ∧ m.verified = true ∧ m.mergeStatus = some "merged" := by
  refine ⟨_, rfl, rfl, rfl, ?_⟩
  show (match o.metadata.bind (·.mergeStatus) with
        | some s => if s = "" then some "merged" else some s
        | none => some "merged") = some "merged"
  cases ho : o.metadata with
  | none => rfl
  | some m0 => simp [h m0 ho]

theorem keepOsmPlace_status (now : ℕ) (o : Place) :
    ∃ m, (keepOsmPlace now o).metadata = some m ∧
      m.source = .osm ∧ m.mergeStatus = some "osm-only" := by
  unfold keepOsmPlace
  cases o.metadata <;> exact ⟨_, rfl, rfl, rfl⟩

theorem keepGooglePlace_status (now : ℕ) (g : Place) :
    ∃ m, (keepGooglePlace now g).metadata = some m ∧
      m.source = .google ∧ m.mergeStatus = some "google-only" := by
  unfold keepGooglePlace
  cases g.metadata <;> exact ⟨_, rfl, rfl, rfl⟩

theorem mergeProviderData_fst (dist : Coordinates → Coordinates → ℚ) (now : ℕ)
    (osmPlaces googlePlaces : List Place) (limit : ℕ) :
    (mergeProviderData dist now osmPlaces googlePlaces limit).1 =
      (insertionSort qualityDesc (mergePhases dist now osmPlaces googlePlaces).1).take limit := by
  cases h : mergePhases dist now osmPlaces googlePlaces with
  | mk all n => simp [mergeProviderData, h]

/-- Every element of the combined (pre-sort) list is a merged record of a
qualifying candidate, a kept OSM record, or an appended Google record. -/
theorem mergePhases_mem (dist : Coordinates → Coordinates → ℚ) (now : ℕ)
    (osmPlaces googlePlaces : List Place) (p : Place)
    (h : p ∈ (mergePhases dist now osmPlaces googlePlaces).1) :
    (∃ o ∈ osmPlaces, ∃ cand, findBestGoogleMatch dist o googlePlaces = some cand ∧
      cand.confidence > 7 / 10 ∧ p = mergePlaceData now o cand.googlePlace) ∨
    (∃ o ∈ osmPlaces, p = keepOsmPlace now o) ∨
    (∃ g ∈ googlePlaces, p = keepGooglePlace now g) := by
  unfold mergePhases at h
  rcases phase2_mem now _ googlePlaces _ p h with h1 | h2
  · rcases phase1_mem dist now googlePlaces osmPlaces ⟨[], [], 0⟩ p h1 with h0 | hm | hk
    · exact absurd h0 (List.not_mem_nil p)
    · exact Or.inl hm
    · exact Or.inr (Or.inl hk)
  · exact Or.inr (Or.inr h2)

/-- The ids of the Google places consumed by phase 1 of the merge. -/
def usedGoogleIds (dist : Coordinates → Coordinates → ℚ) (now : ℕ)
    (osmPlaces googlePlaces : List Place) : List String :=
  (osmPlaces.foldl (mergeOsmStep dist now googlePlaces) ⟨[], [], 0⟩).usedGooglePlaces

/-- C4 (amended): provided the input OSM places carry no pre-set
`mergeStatus`, every record output by the merge engine carries metadata with
`mergeStatus` in {osm-only, google-only, merged}, and a record with source
`merged` has `verified = true` and `mergeStatus = merged`; moreover every
OSM place without a qualifying (confidence > 0.7) match contributes its
`osm-only`-tagged copy and every unconsumed Google place its
`google-only`-tagged copy to the combined list that is then sorted and
truncated. -/
theorem mergeProviderData_merge_status_invariant (dist : Coordinates → Coordinates → ℚ)
    (now : ℕ) (osmPlaces googlePlaces : List Place) (limit : ℕ)
    (hosm : ∀ o ∈ osmPlaces, ∀ m, o.metadata = some m → m.mergeStatus = none) :
    (∀ p ∈ (mergeProviderData dist now osmPlaces googlePlaces limit).1,
      ∃ m, p.metadata = some m ∧
        (m.mergeStatus = some "osm-only" ∨ m.mergeStatus = some "google-only" ∨
          m.mergeStatus = some "merged") ∧
        (m.source = .merged → m.verified = true ∧ m.mergeStatus = some "merged")) ∧
    (∀ o ∈ osmPlaces,
      (∀ cand, findBestGoogleMatch dist o googlePlaces = some cand →
        ¬ cand.confidence > 7 / 10) →
      keepOsmPlace now o ∈ (mergePhases dist now osmPlaces googlePlaces).1) ∧
    (∀ g ∈ googlePlaces,
      (usedGoogleIds dist now osmPlaces googlePlaces).contains g.id = false →
      keepGooglePlace now g ∈ (mergePhases dist now osmPlaces googlePlaces).1) := by
  refine ⟨?_, ?_, ?_⟩
  · intro p hp
    rw [mergeProviderData_fst] at hp
    have hp2 : p ∈ (mergePhases dist now osmPlaces googlePlaces).1 :=
      (mem_insertionSort qualityDesc _ p).mp (List.take_subset _ _ hp)
    rcases mergePhases_mem dist now osmPlaces googlePlaces p hp2 with
      ⟨o, ho, cand, _, _, rfl⟩ | ⟨o, _, rfl⟩ | ⟨g, _, rfl⟩
    · obtain ⟨m, hm, hsrc, hver, hst⟩ := mergePlaceData_status now o cand.googlePlace (hosm o ho)
      exact ⟨m, hm, Or.inr (Or.inr hst), fun _ => ⟨hver, hst⟩⟩
    · obtain ⟨m, hm, hsrc, hst⟩ := keepOsmPlace_status now o
      exact ⟨m, hm, Or.inl hst, fun hmerged => absurd (hsrc ▸ hmerged) (by simp)⟩
    · obtain ⟨m, hm, hsrc, hst⟩ := keepGooglePlace_status now g
      exact ⟨m, hm, Or.inr (Or.inl hst), fun hmerged => absurd (hsrc ▸ hmerged) (by simp)⟩
  · intro o ho hno
    unfold mergePhases
    apply phase2_mono
    exact phase1_keeps dist now googlePlaces osmPlaces ⟨[], [], 0⟩ o ho hno
  · intro g hg hnc
    unfold mergePhases
    exact phase2_keeps now _ googlePlaces _ g hg hnc

/-- An OSM place that already carries a `mergeStatus` string outside the
documented set. -/
def c4OsmPlace : Place :=
  { id := "osm_node_9", name := "cafe x", category := .cafe,
    subcategory := "cafe", coordinates := ⟨0, 0⟩, distance := none,
    address := none, description := none,
    metadata := some
      { source := .osm, externalId := "osm_node_9", lastUpdated := 0,
        verified := false, osm := none, google := none, contact := none,
        hours := none, features := none, mergeStatus := some "in-progress" } }

/-- A Google place that merges with `c4OsmPlace` (same spot, same name,
same category). -/
def c4GooglePlace : Place :=
  { id := "google_d", name := "cafe x", category := .cafe,
    subcategory := "cafe", coordinates := ⟨0, 0⟩, distance := none,
    address := none, description := none, metadata := none }

/-- Counterexample to C4 as stated: when the OSM input already carries a
`mergeStatus` string, the merged record preserves it verbatim, so the
output's `mergeStatus` ("in-progress") escapes
{osm-only, google-only, merged, pending}. -/
theorem merged_record_escapes_status_set :
    (mergeProviderData (fun _ _ => 0) 0 [c4OsmPlace] [c4GooglePlace] 20).1 =
      [mergePlaceData 0 c4OsmPlace c4GooglePlace] ∧
    ∃ m, (mergePlaceData 0 c4OsmPlace c4GooglePlace).metadata = some m ∧
      m.source = .merged ∧ m.verified = true ∧
      m.mergeStatus = some "in-progress" ∧
      m.mergeStatus ∉ [some "osm-only", some "google-only", some "merged",
        some "pending"] := by
  constructor
  · have hconf : calculateMergeConfidence
        ((fun _ _ => (0 : ℚ)) c4OsmPlace.coordinates c4GooglePlace.coordinates)
        (calculateNameSimilarity c4OsmPlace.name c4GooglePlace.name)
        (categoriesMatch c4OsmPlace.category c4GooglePlace.category) > 7 / 10 := by
      have h1 : calculateNameSimilarity c4OsmPlace.name c4GooglePlace.name = 1 := rfl
      have h2 : categoriesMatch c4OsmPlace.category c4GooglePlace.category = true := rfl
      show calculateMergeConfidence 0
        (calculateNameSimilarity c4OsmPlace.name c4GooglePlace.name)
        (categoriesMatch c4OsmPlace.category c4GooglePlace.category) > 7 / 10
      rw [h1, h2]
      norm_num [calculateMergeConfidence, jsMax]
    have := mergeProviderData_singleton (fun _ _ => 0) 0 c4OsmPlace c4GooglePlace 20
      (by omega) (by norm_num) hconf
    rw [this]
  · exact ⟨_, rfl, rfl, rfl, rfl, by decide⟩

/-- Witness for `mergeProviderData_merge_status_invariant` at concrete
inputs whose OSM place carries no pre-set `mergeStatus`. -/
theorem mergeProviderData_merge_status_invariant_witness :
    (∀ p ∈ (mergeProviderData (fun _ _ => 0) 3 [wOsmPlace] [wGooglePlace] 20).1,
      ∃ m, p.metadata = some m ∧
        (m.mergeStatus = some "osm-only" ∨ m.mergeStatus = some "google-only" ∨
          m.mergeStatus = some "merged") ∧
        (m.source = .merged → m.verified = true ∧ m.mergeStatus = some "merged")) ∧
    (∀ o ∈ [wOsmPlace],
      (∀ cand, findBestGoogleMatch (fun _ _ => 0) o [wGooglePlace] = some cand →
        ¬ cand.confidence > 7 / 10) →
      keepOsmPlace 3 o ∈ (mergePhases (fun _ _ => 0) 3 [wOsmPlace] [wGooglePlace]).1) ∧
    (∀ g ∈ [wGooglePlace],
      (usedGoogleIds (fun _ _ => 0) 3 [wOsmPlace] [wGooglePlace]).contains g.id = false →
      keepGooglePlace 3 g ∈ (mergePhases (fun _ _ => 0) 3 [wOsmPlace] [wGooglePlace]).1) :=
  mergeProviderData_merge_status_invariant (fun _ _ => 0) 3 [wOsmPlace] [wGooglePlace] 20
    (by intro o ho m hm
        rw [List.mem_singleton] at ho
        subst ho
        exact absurd hm (by simp [wOsmPlace]))

/-- The spec's rating term: `(rating / 5) · 0.3` when a rating exists. -/
def specRatingTerm : Option ℚ → ℚ
  | some r => (r / 5) * (3 / 10)
  | none => 0

/-- The spec's review term: `min(reviewCount / 100, 0.2)` when present. -/
def specReviewTerm : Option ℚ → ℚ
  | some rc => jsMin (rc / 100) (2 / 10)
  | none => 0

/-- The spec's tag term: `0.1` when the OSM record carries more than 5 tags. -/
def specTagsTerm : Option OsmDetail → ℚ
  | some od => if od.tagKeys.length > 5 then 1 / 10 else 0
  | none => 0

theorem addRatingBoost_eq (s : ℚ) (x : Option ℚ) :
    addRatingBoost s x = s + specRatingTerm x := by
  cases x with
  | none => simp [addRatingBoost, specRatingTerm]
  | some r =>
    by_cases hr : r = 0
    · subst hr; simp [addRatingBoost, specRatingTerm]
    · simp [addRatingBoost, specRatingTerm, hr]

theorem addReviewBoost_eq (s : ℚ) (x : Option ℚ) :
    addReviewBoost s x = s + specReviewTerm x := by
  cases x with
  | none => simp [addReviewBoost, specReviewTerm]
  | some rc =>
    by_cases hrc : rc = 0
    · subst hrc; simp [addReviewBoost, specReviewTerm]; norm_num [jsMin]
    · simp [addReviewBoost, specReviewTerm, hrc]

theorem addTagsBoost_eq (s : ℚ) (x : Option OsmDetail) :
    addTagsBoost s x = s + specTagsTerm x := by
  cases x with
  | none => simp [addTagsBoost, specTagsTerm]
  | some od =>
    by_cases h : od.tagKeys.length > 5 <;> simp [addTagsBoost, specTagsTerm, h]

theorem specRatingTerm_bounds (x : Option ℚ) (h : ∀ r, x = some r → 0 ≤ r ∧ r ≤ 5) :
    0 ≤ specRatingTerm x ∧ specRatingTerm x ≤ 3 / 10 := by
  cases x with
  | none => norm_num [specRatingTerm]
  | some r =>
    obtain ⟨h0, h5⟩ := h r rfl
    constructor <;> simp only [specRatingTerm] <;> nlinarith

theorem specReviewTerm_bounds (x : Option ℚ) (h : ∀ rc, x = some rc → 0 ≤ rc) :
    0 ≤ specReviewTerm x ∧ specReviewTerm x ≤ 2 / 10 := by
  cases x with
  | none => norm_num [specReviewTerm]
  | some rc =>
    have h0 := h rc rfl
    simp only [specReviewTerm, jsMin]
    split <;> constructor <;> linarith

theorem specTagsTerm_bounds (x : Option OsmDetail) :
    0 ≤ specTagsTerm x ∧ specTagsTerm x ≤ 1 / 10 := by
  cases x with
  | none => norm_num [specTagsTerm]
  | some od => simp only [specTagsTerm]; split <;> norm_num

/-- C5 (amended): the quality score always equals
`min(0.5 + ratingTerm + reviewTerm + mergedTerm + tagsTerm, 1)`; whenever
every present rating lies in [0, 5] and every present review count is
nonnegative (true of provider-supplied data), the score lies in [0, 1]. The
code applies no lower clamp, so out-of-range negative attributes can drive
it below 0. -/
theorem calculateQualityScore_formula_and_bounds (place : Place)
    (hr : ∀ m gd r, place.metadata = some m → m.google = some gd →
      gd.rating = some r → 0 ≤ r ∧ r ≤ 5)
    (hc : ∀ m gd rc, place.metadata = some m → m.google = some gd →
      gd.reviewCount = some rc → 0 ≤ rc) :
    calculateQualityScore place =
      jsMin ((1 : ℚ) / 2
        + specRatingTerm (place.metadata.bind fun m => m.google.bind (·.rating))
        + specReviewTerm (place.metadata.bind fun m => m.google.bind (·.reviewCount))
        + (if place.metadata.map (·.source) = some .merged then (1 : ℚ) / 10 else 0)
        + specTagsTerm (place.metadata.bind (·.osm))) 1 ∧
    0 ≤ calculateQualityScore place ∧ calculateQualityScore place ≤ 1 := by
  cases hmeta : place.metadata with
  | none =>
    have hval : calculateQualityScore place = 1 / 2 := by
      simp [calculateQualityScore, hmeta]
    refine ⟨?_, by rw [hval]; norm_num, by rw [hval]; norm_num⟩
    rw [hval]
    simp only [hmeta, Option.none_bind, Option.map_none, specRatingTerm,
      specReviewTerm, specTagsTerm]
    rw [if_neg (by simp)]
    norm_num [jsMin]
  | some m =>
    have hrx : ∀ r, (m.google.bind (·.rating)) = some r → 0 ≤ r ∧ r ≤ 5 := by
      intro r hx
      cases hg : m.google with
      | none => rw [hg] at hx; simp at hx
      | some gd => rw [hg] at hx; simp at hx; exact hr m gd r hmeta hg hx
    have hcx : ∀ rc, (m.google.bind (·.reviewCount)) = some rc → 0 ≤ rc := by
      intro rc hx
      cases hg : m.google with
      | none => rw [hg] at hx; simp at hx
      | some gd => rw [hg] at hx; simp at hx; exact hc m gd rc hmeta hg hx
    have heq : calculateQualityScore place =
        jsMin ((1 : ℚ) / 2 + specRatingTerm (m.google.bind (·.rating))
          + specReviewTerm (m.google.bind (·.reviewCount))
          + (if m.source = .merged then (1 : ℚ) / 10 else 0)
          + specTagsTerm m.osm) 1 := by
      simp only [calculateQualityScore, hmeta, addRatingBoost_eq, addReviewBoost_eq,
        addTagsBoost_eq]
      congr 1
      split
      · ring
      · ring
    obtain ⟨hr0, hr1⟩ := specRatingTerm_bounds _ hrx
    obtain ⟨hc0, hc1⟩ := specReviewTerm_bounds _ hcx
    obtain ⟨ht0, ht1⟩ := specTagsTerm_bounds m.osm
    have hm0 : (0 : ℚ) ≤ (if m.source = .merged then (1 : ℚ) / 10 else 0) := by
      split <;> norm_num
    refine ⟨by rw [heq]; simp [hmeta], ?_, ?_⟩
    · rw [heq]
      by_cases hle : (1 : ℚ) ≤ (1 : ℚ) / 2 + specRatingTerm (m.google.bind (·.rating))
          + specReviewTerm (m.google.bind (·.reviewCount))
          + (if m.source = .merged then (1 : ℚ) / 10 else 0)
          + specTagsTerm m.osm
      · rw [jsMin, if_pos hle]; norm_num
      · rw [jsMin, if_neg hle]; linarith
    · rw [heq]
      by_cases hle : (1 : ℚ) ≤ (1 : ℚ) / 2 + specRatingTerm (m.google.bind (·.rating))
          + specReviewTerm (m.google.bind (·.reviewCount))
          + (if m.source = .merged then (1 : ℚ) / 10 else 0)
          + specTagsTerm m.osm
      · rw [jsMin, if_pos hle]
      · rw [jsMin, if_neg hle]; linarith

/-- A place carrying an out-of-range (negative) rating. -/
def badRatedPlace : Place :=
  { id := "google_bad", name := "bad", category := .cafe, subcategory := "cafe",
    coordinates := ⟨0, 0⟩, distance := none, address := none, description := none,
    metadata := some
      { source := .google, externalId := "g", lastUpdated := 0, verified := true,
        osm := none,
        google := some
          { placeId := "g", rating := some (-100), reviewCount := none,
            priceLevel := none },
        contact := none, hours := none, features := none, mergeStatus := none } }

/-- Counterexample to C5 as stated: the code clamps the quality score only
from above, so a place with rating −100 scores 0.5 + (−100/5)·0.3 = −5.5,
outside [0, 1]. -/
theorem quality_score_escapes_unit_interval :
    calculateQualityScore badRatedPlace = -(11 / 2) ∧
    ¬ (0 ≤ calculateQualityScore badRatedPlace ∧
       calculateQualityScore badRatedPlace ≤ 1) := by
  have hval : calculateQualityScore badRatedPlace = -(11 / 2) := by
    have hne : Source.google ≠ Source.merged := by decide
    simp only [calculateQualityScore, badRatedPlace, Option.some_bind, if_neg hne]
    norm_num [addRatingBoost, addReviewBoost, addTagsBoost, jsMin]
  exact ⟨hval, by rw [hval]; norm_num⟩

/-- Witness for `calculateQualityScore_formula_and_bounds` at a concrete
place without metadata. -/
theorem calculateQualityScore_formula_and_bounds_witness :
    calculateQualityScore wOsmPlace =
      jsMin ((1 : ℚ) / 2
        + specRatingTerm (wOsmPlace.metadata.bind fun m => m.google.bind (·.rating))
        + specReviewTerm (wOsmPlace.metadata.bind fun m => m.google.bind (·.reviewCount))
        + (if wOsmPlace.metadata.map (·.source) = some .merged then (1 : ℚ) / 10 else 0)
        + specTagsTerm (wOsmPlace.metadata.bind (·.osm))) 1 ∧
    0 ≤ calculateQualityScore wOsmPlace ∧ calculateQualityScore wOsmPlace ≤ 1 :=
  calculateQualityScore_formula_and_bounds wOsmPlace
    (by intro m gd r hm; simp [wOsmPlace] at hm)
    (by intro m gd rc hm; simp [wOsmPlace] at hm)

/-- A cache miss reduces `searchNearby` to the post-miss chain. -/
theorem searchNearby_of_miss (cfg : LocationServiceConfig) (cache : CacheMap)
    (key : String) (now : ℤ) (dbResults : LocationSearchResponse)
    (providerResult : Except String LocationSearchResponse) (limit : ℕ)
    (hmiss : (if cfg.enableCaching then getFromCache cfg cache key now else (none, cache)).1 = none) :
    searchNearby cfg cache key now dbResults providerResult limit =
      searchAfterMiss cfg
        (if cfg.enableCaching then getFromCache cfg cache key now else (none, cache)).2
        key now dbResults providerResult limit := by
  unfold searchNearby
  cases hL : (if cfg.enableCaching = true then getFromCache cfg cache key now
      else (none, cache)) with
  | mk o c1 =>
    rw [hL] at hmiss
    simp only at hmiss
    subst hmiss
    rfl

/-- C6: on a cache miss with insufficient database results, a failing
provider search returns the database records tagged `database-fallback`
when the store returned at least one record, and raises the
`Location search failed` 503 error when the store was empty; moreover any
error `searchNearby` ever returns arises exactly from that case: empty
store and failed provider. -/
theorem searchNearby_fallback_semantics (cfg : LocationServiceConfig) (cache : CacheMap)
    (key : String) (now : ℤ) (dbResults : LocationSearchResponse) (limit : ℕ)
    (hmiss : (if cfg.enableCaching then getFromCache cfg cache key now else (none, cache)).1 = none)
    (hinsuff : dbResults.places.length < limit) :
    (∀ e : String, dbResults.places ≠ [] →
      (searchNearby cfg cache key now dbResults (.error e) limit).1 =
        .ok { dbResults with
          metadata := { dbResults.metadata with provider := "database-fallback" } }) ∧
    (∀ e : String, dbResults.places = [] →
      (searchNearby cfg cache key now dbResults (.error e) limit).1 =
        .error ("Location search failed: " ++ e, 503)) ∧
    (∀ (dbr : LocationSearchResponse) (pr : Except String LocationSearchResponse)
        (err : String × ℕ),
      (searchNearby cfg cache key now dbr pr limit).1 = .error err →
      dbr.places = [] ∧ ∃ e, pr = .error e ∧ err = ("Location search failed: " ++ e, 503)) := by
  refine ⟨?_, ?_, ?_⟩
  · intro e hne
    rw [searchNearby_of_miss cfg cache key now dbResults (.error e) limit hmiss]
    unfold searchAfterMiss
    rw [if_neg (by omega)]
    show handleProviderFailure dbResults e =
      .ok { dbResults with
        metadata := { dbResults.metadata with provider := "database-fallback" } }
    unfold handleProviderFailure
    rw [if_pos (List.length_pos.mpr hne)]
  · intro e hempty
    rw [searchNearby_of_miss cfg cache key now dbResults (.error e) limit hmiss]
    unfold searchAfterMiss
    rw [if_neg (by omega)]
    show handleProviderFailure dbResults e = .error ("Location search failed: " ++ e, 503)
    unfold handleProviderFailure
    rw [if_neg (by simp [hempty])]
  · intro dbr pr err h
    rw [searchNearby_of_miss cfg cache key now dbr pr limit hmiss] at h
    unfold searchAfterMiss at h
    by_cases hdb : dbr.places.length ≥ limit
    · rw [if_pos hdb] at h
      exact absurd h (by simp)
    · rw [if_neg hdb] at h
      cases pr with
      | ok r => exact absurd h (by simp)
      | error e =>
        have h2 : handleProviderFailure dbr e = .error err := h
        unfold handleProviderFailure at h2
        by_cases hne : dbr.places.length > 0
        · rw [if_pos hne] at h2
          exact absurd h2 (by simp)
        · rw [if_neg hne] at h2
          simp only [Except.error.injEq] at h2
          exact ⟨List.length_eq_zero.mp (by omega), e, rfl, h2.symm⟩

/-- A one-record database response used by witnesses. -/
def dbOneResponse : LocationSearchResponse :=
  { places := [wOsmPlace],
    metadata :=
      { provider := "database", responseTime := 5, totalResults := 1,
        searchRadius := 2000, categoriesSearched := [], cached := none } }

/-- Witness for `searchNearby_fallback_semantics` on an empty cache with a
one-record store and a ten-record requirement. -/
theorem searchNearby_fallback_semantics_witness :
    (∀ e : String, dbOneResponse.places ≠ [] →
      (searchNearby defaultServiceConfig [] "k" 0 dbOneResponse (.error e) 10).1 =
        .ok { dbOneResponse with
          metadata := { dbOneResponse.metadata with provider := "database-fallback" } }) ∧
    (∀ e : String, dbOneResponse.places = [] →
      (searchNearby defaultServiceConfig [] "k" 0 dbOneResponse (.error e) 10).1 =
        .error ("Location search failed: " ++ e, 503)) ∧
    (∀ (dbr : LocationSearchResponse) (pr : Except String LocationSearchResponse)
        (err : String × ℕ),
      (searchNearby defaultServiceConfig [] "k" 0 dbr pr 10).1 = .error err →
      dbr.places = [] ∧ ∃ e, pr = .error e ∧ err = ("Location search failed: " ++ e, 503)) :=
  searchNearby_fallback_semantics defaultServiceConfig [] "k" 0 dbOneResponse 10
    rfl (by decide)

theorem find?_mapSet_replace (key : String) (v : CacheEntry) :
    ∀ (cache : CacheMap), cache.any (fun p => p.1 == key) = true →
      (cache.map fun p => if p.1 == key then (key, v) else p).find?
        (fun p => p.1 == key) = some (key, v)
  | [], h => by simp at h
  | hd :: tl, h => by
    by_cases hhd : hd.1 == key
    · simp [List.find?, hhd]
    · have htl : tl.any (fun p => p.1 == key) = true := by
        simp only [List.any_cons, hhd, Bool.false_or] at h
        exact h
      have hf : (hd.1 == key) = false := by
        cases hb : hd.1 == key
        · rfl
        · exact absurd hb hhd
      rw [List.map_cons, if_neg hhd]
      simp only [List.find?_cons, hf]
      exact find?_mapSet_replace key v tl htl

theorem find?_append_none {p : String × CacheEntry → Bool} :
    ∀ (l1 l2 : CacheMap), l1.find? p = none → (l1 ++ l2).find? p = l2.find? p
  | [], l2, _ => rfl
  | hd :: tl, l2, h => by
    by_cases hhd : p hd
    · rw [List.find?_cons_of_pos _ hhd] at h
      exact absurd h (by simp)
    · rw [List.find?_cons_of_neg _ hhd] at h
      rw [List.cons_append, List.find?_cons_of_neg _ hhd]
      exact find?_append_none tl l2 h

/-- After `mapSet`, the key maps to the freshly stored entry. -/
theorem mapGet_mapSet (cache : CacheMap) (key : String) (v : CacheEntry) :
    mapGet (mapSet cache key v) key = some v := by
  unfold mapGet mapSet
  by_cases hany : cache.any (fun p => p.1 == key) = true
  · rw [if_pos hany, find?_mapSet_replace key v cache hany]
    rfl
  · rw [if_neg hany]
    have hnone : cache.find? (fun p => p.1 == key) = none := by
      rw [List.find?_eq_none]
      intro p hp hpk
      exact hany (List.any_eq_true.mpr ⟨p, hp, hpk⟩)
    rw [find?_append_none cache [(key, v)] hnone]
    simp [List.find?]

/-- C7 (amended): reading a non-expired entry returns the stored response
object itself with `cached` set to `true`, and the cache afterwards holds
exactly that marked response under the same key and timestamp — the read
aliases and mutates the stored state instead of returning an independent
clone. -/
theorem getFromCache_hit_marks_and_aliases (cfg : LocationServiceConfig)
    (cache : CacheMap) (key : String) (now : ℤ) (entry : CacheEntry)
    (hget : mapGet cache key = some entry)
    (hfresh : ¬ (now - entry.timestamp > cfg.cacheTimeout * 1000)) :
    getFromCache cfg cache key now =
      (some { entry.data with
          metadata := { entry.data.metadata with cached := some true } },
       mapSet cache key
         { entry with data := { entry.data with
             metadata := { entry.data.metadata with cached := some true } } }) ∧
    mapGet (getFromCache cfg cache key now).2 key =
      some { entry with data := { entry.data with
        metadata := { entry.data.metadata with cached := some true } } } := by
  have h1 : getFromCache cfg cache key now =
      (some { entry.data with
          metadata := { entry.data.metadata with cached := some true } },
       mapSet cache key
         { entry with data := { entry.data with
             metadata := { entry.data.metadata with cached := some true } } }) := by
    unfold getFromCache
    simp only [hget]
    rw [if_neg hfresh]
  refine ⟨h1, ?_⟩
  rw [h1]
  exact mapGet_mapSet cache key _

/-- A stored response used by the cache counterexample/witness. -/
def c7Response : LocationSearchResponse :=
  { places := [],
    metadata :=
      { provider := "osm", responseTime := 5, totalResults := 0,
        searchRadius := 2000, categoriesSearched := [], cached := some false } }

/-- A one-entry cache holding `c7Response` (stored with `cached = false`). -/
def c7Cache : CacheMap := [("k", ⟨c7Response, 0⟩)]

/-- Counterexample to C7 as stated: reading the fresh entry changes the
cache state itself (the stored response's `cached` flag flips to `true`),
and the stored entry afterwards is exactly the returned response — the read
returns an alias of cache state, not an independent clone. -/
theorem getFromCache_read_mutates_cache_state :
    (getFromCache defaultServiceConfig c7Cache "k" 0).2 ≠ c7Cache ∧
    (getFromCache defaultServiceConfig c7Cache "k" 0).1 =
      some { c7Response with
        metadata := { c7Response.metadata with cached := some true } } ∧
    mapGet (getFromCache defaultServiceConfig c7Cache "k" 0).2 "k" =
      some ⟨{ c7Response with
        metadata := { c7Response.metadata with cached := some true } }, 0⟩ := by
  refine ⟨by decide, by decide, by decide⟩

/-- Witness for `getFromCache_hit_marks_and_aliases` on the concrete
one-entry cache. -/
theorem getFromCache_hit_marks_and_aliases_witness :
    getFromCache defaultServiceConfig c7Cache "k" 0 =
      (some { c7Response with
          metadata := { c7Response.metadata with cached := some true } },
       mapSet c7Cache "k"
         ⟨{ c7Response with
             metadata := { c7Response.metadata with cached := some true } }, 0⟩) ∧
    mapGet (getFromCache defaultServiceConfig c7Cache "k" 0).2 "k" =
      some ⟨{ c7Response with
        metadata := { c7Response.metadata with cached := some true } }, 0⟩ :=
  getFromCache_hit_marks_and_aliases defaultServiceConfig c7Cache "k" 0
    ⟨c7Response, 0⟩ (by decide) (by decide)

theorem evictIfOver_length (c1 : CacheMap) (h101 : c1.length ≤ 101)
    (hhead : 101 ≤ c1.length → ∀ p, c1.head? = some p → p.1 ≠ "") :
    (evictIfOver c1).length ≤ 100 := by
  unfold evictIfOver
  by_cases hgt : c1.length > 100
  · rw [if_pos hgt]
    cases c1 with
    | nil => simp at hgt
    | cons hd tl =>
      simp only [List.head?_cons]
      rw [if_neg (hhead (by omega) hd rfl)]
      unfold mapDelete
      have hself : (hd.1 != hd.1) = false := by simp
      rw [List.filter_cons, hself]
      simp only [Bool.false_eq_true, if_false]
      have := List.length_filter_le (fun p => p.1 != hd.1) tl
      simp only [List.length_cons] at hgt h101
      omega
  · rw [if_neg hgt]
    omega

theorem mapSet_length (cache : CacheMap) (key : String) (v : CacheEntry) :
    (mapSet cache key v).length =
      if cache.any (fun p => p.1 == key) then cache.length else cache.length + 1 := by
  unfold mapSet
  split <;> simp

/-- C8: a write never leaves more than 100 entries in the cache (given the
real invariants: at most 100 entries before, non-empty keys, no duplicate
keys); and writing a fresh 101st key into a full 100-entry cache removes
exactly the oldest-inserted entry and appends the new one. -/
theorem setCache_capacity_and_eviction (cache : CacheMap) (key : String)
    (data : LocationSearchResponse) (now : ℤ)
    (hlen : cache.length ≤ 100)
    (hkeys : ∀ p ∈ cache, p.1 ≠ "")
    (hnodup : (cache.map Prod.fst).Nodup) :
    (setCache cache key data now).length ≤ 100 ∧
    (cache.length = 100 → key ∉ cache.map Prod.fst →
      setCache cache key data now =
        cache.tail ++ [(key,
          ⟨{ data with metadata := { data.metadata with cached := some false } },
           now⟩)]) := by
  have hany_of_not_mem : ∀ k : String, k ∉ cache.map Prod.fst →
      cache.any (fun p => p.1 == k) = false := by
    intro k hk
    rw [← Bool.not_eq_true, List.any_eq_true]
    rintro ⟨p, hp, hpk⟩
    exact hk (List.mem_map.mpr ⟨p, hp, by simpa using hpk⟩)
  constructor
  · unfold setCache
    apply evictIfOver_length
    · rw [mapSet_length]
      split <;> omega
    · intro hbig p hp
      by_cases hany : cache.any (fun p => p.1 == key) = true
      · rw [mapSet_length, if_pos hany] at hbig
        omega
      · unfold mapSet at hp
        rw [if_neg hany] at hp
        cases cache with
        | nil =>
          rw [mapSet_length, if_neg hany] at hbig
          simp only [List.length_nil] at hbig
          omega
        | cons hd tl =>
          simp only [List.cons_append, List.head?_cons, Option.some.injEq] at hp
          subst hp
          exact hkeys hd (by simp)
  · intro h100 hnotmem
    have hany := hany_of_not_mem key hnotmem
    unfold setCache mapSet
    rw [if_neg (by rw [hany]; simp)]
    cases cache with
    | nil => simp at h100
    | cons hd tl =>
      have h100t : tl.length = 99 := by
        simp only [List.length_cons] at h100
        omega
      unfold evictIfOver
      rw [if_pos (by simp only [List.cons_append, List.length_cons,
        List.length_append, List.length_singleton, h100t]; omega)]
      simp only [List.cons_append, List.head?_cons]
      rw [if_neg (hkeys hd (by simp))]
      unfold mapDelete
      have hself : (hd.1 != hd.1) = false := by simp
      rw [List.filter_cons, hself]
      simp only [Bool.false_eq_true, if_false]
      have hrest : ∀ p ∈ tl ++ [(key,
          (⟨{ data with metadata := { data.metadata with cached := some false } },
           now⟩ : CacheEntry))], (p.1 != hd.1) = true := by
        intro p hp
        rcases List.mem_append.mp hp with hptl | hpk
        · have hfst : hd.1 ∉ tl.map Prod.fst := by
            have h2 := hnodup
            simp only [List.map_cons, List.nodup_cons] at h2
            exact h2.1
          have hne : p.1 ≠ hd.1 := by
            intro he
            exact hfst (he ▸ List.mem_map.mpr ⟨p, hptl, rfl⟩)
          simpa using hne
        · have hpe : p = (key,
              (⟨{ data with metadata := { data.metadata with cached := some false } },
               now⟩ : CacheEntry)) := by simpa using hpk
          subst hpe
          have hne : key ≠ hd.1 := by
            intro he
            exact hnotmem (he ▸ List.mem_map.mpr ⟨hd, by simp, rfl⟩)
          simpa using hne
      rw [List.filter_eq_self.mpr hrest]
      rfl

/-- A full 100-entry cache with distinct non-empty keys. -/
def c8Cache : CacheMap :=
  (List.range 100).map fun i => ("k" ++ toString i, (⟨c7Response, 0⟩ : CacheEntry))

/-- Witness for `setCache_capacity_and_eviction`: writing a fresh 101st key
into the full concrete cache. -/
theorem setCache_capacity_and_eviction_witness :
    (setCache c8Cache "fresh" c7Response 0).length ≤ 100 ∧
    setCache c8Cache "fresh" c7Response 0 =
      c8Cache.tail ++ [("fresh",
        ⟨{ c7Response with
            metadata := { c7Response.metadata with cached := some false } }, 0⟩)] := by
  have h := setCache_capacity_and_eviction c8Cache "fresh" c7Response 0
    (by decide) (by decide) (by decide)
  exact ⟨h.1, h.2 (by decide) (by decide)⟩

/-- C9 (amended): the normalized radius never exceeds `maxRadius`, and is
nonnegative whenever the requested radius and the configured defaults are —
the code clamps only from above (`Math.min`), so a negative requested
radius passes through unclamped; and when no category list is given but a
mood is, the normalized category list is the mood→category table's entry
for that mood. -/
theorem normalizeRequest_radius_and_mood (cfg : LocationServiceConfig)
    (request : LocationSearchRequest) :
    (normalizeRequest cfg request).radius ≤ cfg.maxRadius ∧
    (0 ≤ cfg.defaultRadius → 0 ≤ cfg.maxRadius →
      (∀ v, request.radius = some v → 0 ≤ v) →
      0 ≤ (normalizeRequest cfg request).radius) ∧
    (request.categories = none → ∀ m, request.mood = some m →
      (normalizeRequest cfg request).categories = MOOD_CATEGORY_MAPPING m) := by
  refine ⟨?_, ?_, ?_⟩
  · show jsMin (jsOrQ request.radius cfg.defaultRadius) cfg.maxRadius ≤ cfg.maxRadius
    unfold jsMin
    split
    · exact le_refl _
    · linarith [not_le.mp (by assumption)]
  · intro hd hm hr
    show 0 ≤ jsMin (jsOrQ request.radius cfg.defaultRadius) cfg.maxRadius
    have h0 : 0 ≤ jsOrQ request.radius cfg.defaultRadius := by
      cases hx : request.radius with
      | none => simpa [jsOrQ] using hd
      | some v =>
        by_cases hv : v = 0
        · simpa [jsOrQ, hv] using hd
        · simp only [jsOrQ]
          rw [if_neg hv]
          exact hr v hx
    unfold jsMin
    split
    · exact hm
    · exact h0
  · intro hcat m hmood
    simp [normalizeRequest, hcat, hmood]

/-- A request with a negative radius (and a mood but no categories). -/
def c9NegativeRequest : LocationSearchRequest :=
  { latitude := 0, longitude := 0, radius := some (-5), categories := none,
    mood := some .hungry, limit := none, excludeChains := none }

/-- Counterexample to C9 as stated: `normalizeRequest` computes
`Math.min(radius || default, maxRadius)` with no lower bound, so a radius of
−5 m normalizes to −5, outside [0, maxRadius]. -/
theorem normalized_radius_can_be_negative :
    (normalizeRequest defaultServiceConfig c9NegativeRequest).radius = -5 ∧
    ¬ (0 ≤ (normalizeRequest defaultServiceConfig c9NegativeRequest).radius) := by
  decide

/-- A well-formed request: radius 3000 m, mood `hungry`, no categories. -/
def c9Request : LocationSearchRequest :=
  { latitude := 0, longitude := 0, radius := some 3000, categories := none,
    mood := some .hungry, limit := none, excludeChains := none }

/-- Witness for `normalizeRequest_radius_and_mood` at a concrete request. -/
theorem normalizeRequest_radius_and_mood_witness :
    (normalizeRequest defaultServiceConfig c9Request).radius ≤
      defaultServiceConfig.maxRadius ∧
    0 ≤ (normalizeRequest defaultServiceConfig c9Request).radius ∧
    (normalizeRequest defaultServiceConfig c9Request).categories =
      MOOD_CATEGORY_MAPPING .hungry := by
  have h := normalizeRequest_radius_and_mood defaultServiceConfig c9Request
  refine ⟨h.1, ?_, h.2.2 rfl .hungry rfl⟩
  apply h.2.1 (by decide) (by decide)
  intro v hv
  have hv3 : v = 3000 := by
    have : (some (3000 : ℚ)) = some v := hv
    simpa using this.symm
  rw [hv3]
  norm_num

/-- C10: `mapPriceLevel` sends `PRICE_LEVEL_FREE` to `2`, the same value as
`PRICE_LEVEL_MODERATE` and as every string outside the five known tier
names (so the mapping is not injective and a free price tier is
indistinguishable from a moderate one), and it never returns `0`. -/
theorem mapPriceLevel_free_collapses_to_moderate :
    mapPriceLevel "PRICE_LEVEL_FREE" = 2 ∧
    mapPriceLevel "PRICE_LEVEL_MODERATE" = 2 ∧
    "PRICE_LEVEL_FREE" ≠ "PRICE_LEVEL_MODERATE" ∧
    (∀ s : String,
      s ∉ ["PRICE_LEVEL_FREE", "PRICE_LEVEL_INEXPENSIVE", "PRICE_LEVEL_MODERATE",
           "PRICE_LEVEL_EXPENSIVE", "PRICE_LEVEL_VERY_EXPENSIVE"] →
      mapPriceLevel s = 2) ∧
    (∀ s : String, mapPriceLevel s ≠ 0) := by
  refine ⟨by decide, by decide, by decide, ?_, ?_⟩
  · intro s hs
    simp only [List.mem_cons, List.not_mem_nil, or_false, not_or] at hs
    obtain ⟨h1, h2, h3, h4, h5⟩ := hs
    simp [mapPriceLevel, h1, h2, h3, h4, h5, jsOrNat]
  · intro s
    by_cases h1 : s = "PRICE_LEVEL_FREE" <;>
    by_cases h2 : s = "PRICE_LEVEL_INEXPENSIVE" <;>
    by_cases h3 : s = "PRICE_LEVEL_MODERATE" <;>
    by_cases h4 : s = "PRICE_LEVEL_EXPENSIVE" <;>
    by_cases h5 : s = "PRICE_LEVEL_VERY_EXPENSIVE" <;>
    simp [mapPriceLevel, h1, h2, h3, h4, h5, jsOrNat]

/-- Witness for `mapPriceLevel_free_collapses_to_moderate` at the concrete
unknown string `"PRICE_LEVEL_UNSPECIFIED"`. -/
theorem mapPriceLevel_free_collapses_to_moderate_witness :
    mapPriceLevel "PRICE_LEVEL_FREE" = 2 ∧
    mapPriceLevel "PRICE_LEVEL_UNSPECIFIED" = 2 ∧
    mapPriceLevel "PRICE_LEVEL_UNSPECIFIED" ≠ 0 := by
  have h := mapPriceLevel_free_collapses_to_moderate
  exact ⟨h.1, h.2.2.2.1 "PRICE_LEVEL_UNSPECIFIED" (by decide),
    h.2.2.2.2 "PRICE_LEVEL_UNSPECIFIED"⟩
